import Mathlib

/-!
Verification development for the `msgq` modern C++ wrapper: a shallow
embedding of the shared-memory single-producer / multi-consumer queue
(`msgq_modern.h` / `msgq_modern.cc`), the cross-process event primitive
(`event_modern.h`) and the fake/test gate (`impl_fake_modern.h`), together
with theorems settling the specification claims about them.

Machine integers are modelled as `Nat` with explicit reductions modulo
`2^32` / `2^64` exactly where the C++ performs a narrowing conversion or
unsigned wrap-around; C `int` values that can be negative (the reader id)
are modelled as `Int`.
-/

namespace Msgq

/-- Number of reader slots, `NUM_READERS = 15` in `msgq_modern.h`. -/
def NUM_READERS : Nat := 15

/-- Default segment size, `DEFAULT_SEGMENT_SIZE = 10 * 1024 * 1024`. -/
def DEFAULT_SEGMENT_SIZE : Nat := 10 * 1024 * 1024

/-- `align_to_8(n) = (n + 7) & ~7ULL` from `msgq_modern.h`.  On `Nat` the
bitwise-and with the 64-bit mask `~7` agrees with rounding up to a multiple
of 8 for every value that fits in 64 bits (the only ones a `size_t` can
hold). -/
def align_to_8 (n : Nat) : Nat := (n + 7) &&& 0xFFFFFFFFFFFFFFF8

/-- `PackedPointer`: a 64-bit word packing a 32-bit cycle counter (high
bits) with a 32-bit offset (low bits), `msgq_modern.h`. -/
structure PackedPointer where
  raw : Nat
deriving DecidableEq, Repr

/-- The two-argument constructor
`PackedPointer(uint32_t cycle, uint32_t offset)`:
`(uint64(cycle) << 32) | offset`.  The `% 2^32` models the narrowing of the
arguments to `uint32_t`. -/
def PackedPointer.ofParts (cycle offset : Nat) : PackedPointer :=
  ⟨(cycle % 2 ^ 32) * 2 ^ 32 + offset % 2 ^ 32⟩

/-- `PackedPointer::cycle()`: the value shifted right by 32, narrowed to
`uint32_t`. -/
def PackedPointer.cycle (p : PackedPointer) : Nat := p.raw / 2 ^ 32 % 2 ^ 32

/-- `PackedPointer::offset()`: the low 32 bits. -/
def PackedPointer.offset (p : PackedPointer) : Nat := p.raw % 2 ^ 32

/-- Error taxonomy of the operations embedded here.  In the C++ every
failure is a `MessageQueueError` carrying only a message string; the
constructors below name the distinct `throw` sites. -/
inductive QErr where
  | notPublisher      -- "Not initialized as publisher"
  | notSubscriber     -- "Not initialized as subscriber"
  | messageTooLarge   -- "Message too large for queue"
  | maxSubscribers    -- "Maximum number of subscribers reached"
deriving DecidableEq, Repr

/-- The shared-memory header, `Queue::Impl::Header` in `msgq_modern.cc`:
`write_index`, `read_index[NUM_READERS]`, `num_readers`, `reader_uid`,
`segment_size`.  `read_index` is modelled as a total function on `Nat` so
that the (buggy) loops that run past slot 14 stay expressible; only
indices `0..14` correspond to the declared array. -/
structure Header where
  write_index : Nat          -- atomic uint64
  read_index : Nat → Nat     -- atomic uint64 [NUM_READERS]
  num_readers : Nat          -- uint32
  reader_uid : Nat           -- uint32 (never written by the code)
  segment_size : Nat         -- uint64 (never written by the code)

/-- The cross-process shared state of one channel: the header plus the
`Data` region of `size_` bytes that follows it in the mapping. -/
structure Shared where
  header : Header
  data : List Nat

/-- The per-process (per-`Queue::Impl`) local fields: `size_` (the aligned
requested size), `reader_id_` (a C `int`, `-1` until `init_subscriber`)
and `is_publisher_`. -/
structure Handle where
  size : Nat
  reader_id : Int
  is_publisher : Bool
deriving DecidableEq, Repr

/-- Conversion `uint32_t` value → C `int` (two's complement), as in
`reader_id_ = header_->num_readers++`. -/
def toInt32 (n : Nat) : Int :=
  let m : Nat := n % 2 ^ 32
  if m < 2 ^ 31 then (m : Int) else (m : Int) - 2 ^ 32

/-- A header as found in a freshly created (zero-filled) segment file. -/
def Header.fresh : Header :=
  { write_index := 0, read_index := fun _ => 0, num_readers := 0
    reader_uid := 0, segment_size := 0 }

/-- Shared state of a freshly created segment for requested size `size`:
zero-filled header and a zero-filled data region of `align_to_8 size`
bytes (the constructor stores `size_ = align_to_8(size)` and `ftruncate`
zero-fills the new file). -/
def Shared.fresh (size : Nat) : Shared :=
  { header := Header.fresh, data := List.replicate (align_to_8 size) 0 }

/-- Local handle state directly after `Queue::create(name, size)`:
`size_ = align_to_8(size)`, `reader_id_ = -1`, `is_publisher_ = false`. -/
def Handle.fresh (size : Nat) : Handle :=
  { size := align_to_8 size, reader_id := -1, is_publisher := false }

/-- `memcpy(buf + off, src, src.length)` on a byte list: positions
`off ≤ i < off + src.length` take bytes of `src`, everything else keeps
`buf`.  The list keeps its length (as the mapped region does). -/
def writeBytes (buf : List Nat) (off : Nat) (src : List Nat) : List Nat :=
  (List.range buf.length).map fun i =>
    if off ≤ i ∧ i < off + src.length then src.getD (i - off) 0 else buf.getD i 0

/-- `Queue::Impl::send_message` (`msgq_modern.cc:96-124`).  Checks
`is_publisher_`, rejects `data.size() > size_`, copies the payload at the
current offset (wrapping the copy at `size_`), then stores a new
`PackedPointer(cycle + 1, (offset + data.size()) % size_)` — the cycle is
incremented on every send and no frame header is written. -/
def send_message (h : Handle) (sh : Shared) (payload : List Nat) :
    Except QErr Shared :=
  if !h.is_publisher then .error .notPublisher
  else if payload.length > h.size then .error .messageTooLarge
  else
    let wp : PackedPointer := ⟨sh.header.write_index⟩
    let offset := wp.offset
    let newData :=
      if offset + payload.length > h.size then
        writeBytes (writeBytes sh.data offset (payload.take (h.size - offset)))
          0 (payload.drop (h.size - offset))
      else
        writeBytes sh.data offset payload
    let np := PackedPointer.ofParts (wp.cycle + 1) ((offset + payload.length) % h.size)
    .ok { sh with header := { sh.header with write_index := np.raw },
                  data := newData }

/-- `Queue::Impl::receive_message` (`msgq_modern.cc:126-151`).  The
`timeout_ms` and `conflate` parameters are accepted and ignored by the
code.  When the reader cursor differs from the write cursor the code
stores the write cursor into the reader slot and returns a
default-constructed `Message` — it never parses a frame or copies payload
bytes, so the returned byte list is always `[]`. -/
def receive_message (h : Handle) (sh : Shared) (_timeout_ms : Int)
    (_conflate : Bool) : Except QErr (List Nat × Shared) :=
  if h.reader_id < 0 then .error .notSubscriber
  else
    let rid := h.reader_id.toNat
    let rp : PackedPointer := ⟨sh.header.read_index rid⟩
    let wp : PackedPointer := ⟨sh.header.write_index⟩
    if rp = wp then .ok ([], sh)
    else
      .ok ([], { sh with header :=
        { sh.header with read_index := fun i =>
            if i = rid then wp.raw else sh.header.read_index i } })

/-- The reader-slot index `Queue::msg_ready` uses for
`header_->read_index[impl_->reader_id_]` (`msgq_modern.cc:178-187`): it is
`reader_id_` itself, with no bounds check. -/
def msg_ready_slot (h : Handle) : Int := h.reader_id

/-- `Queue::msg_ready` on a live impl.  The C++ indexes `read_index` with
the possibly-negative `reader_id_`; the embedding clamps via `Int.toNat`
for totality, and the out-of-bounds index itself is exposed through
`msg_ready_slot`. -/
def msg_ready (h : Handle) (sh : Shared) : Bool :=
  sh.header.read_index (msg_ready_slot h).toNat != sh.header.write_index

/-- `Queue::init_publisher`: sets `is_publisher_`. -/
def init_publisher (h : Handle) : Handle := { h with is_publisher := true }

/-- `Queue::init_subscriber` (`msgq_modern.cc:194-204`).  The code computes
a `reader_uid` from the pid and discards it, performs
`reader_id_ = header_->num_readers++` (mutating the shared header), and
only afterwards checks `reader_id_ >= NUM_READERS`, throwing without
rolling the increment back.  The result carries the error (if any)
together with the mutated handle and shared state, because the mutation
survives the throw. -/
def init_subscriber (h : Handle) (sh : Shared) :
    Option QErr × (Handle × Shared) :=
  let rid := sh.header.num_readers
  let h2 := { h with reader_id := toInt32 rid }
  let sh2 := { sh with header :=
    { sh.header with num_readers := (rid + 1) % 2 ^ 32 } }
  if h2.reader_id ≥ (NUM_READERS : Int) then (some .maxSubscribers, (h2, sh2))
  else (none, (h2, sh2))

/-- `Queue::all_readers_updated` (`msgq_modern.cc:211-227`): loads
`write_index`, then for every `i < num_readers` compares the raw
`read_index[i]` load against it; any mismatch yields `false`.  No reader
identity or owner liveness is consulted. -/
def all_readers_updated (sh : Shared) : Bool :=
  (List.range sh.header.num_readers).all fun i =>
    sh.header.read_index i == sh.header.write_index

/-! ### Segment creation at the filesystem level (`init_shared_memory`) -/

/-- `sizeof(Queue::Impl::Header)`: one atomic `uint64` (8), fifteen atomic
`uint64` (120), two `uint32` (8) and one `uint64` (8) — 144 bytes, with no
padding under 8-byte alignment. -/
def header_bytes : Nat := 144

/-- The backing file of one channel, reduced to what
`init_shared_memory` can observe and change: its current size (in bytes)
when it exists. -/
structure FsState where
  file_size : Option Nat
deriving DecidableEq, Repr

/-- `open(path, O_CREAT | O_RDWR, 0666)`: creates an empty file when none
exists, opens the existing one otherwise.  Returns the size found. -/
def open_creat (fs : FsState) : Nat × FsState :=
  match fs.file_size with
  | some n => (n, fs)
  | none => (0, ⟨some 0⟩)

/-- `ftruncate(fd, n)`: unconditionally sets the file size to `n`. -/
def ftruncate_fs (_fs : FsState) (n : Nat) : FsState := ⟨some n⟩

/-- `Queue::Impl::init_shared_memory` (`msgq_modern.cc:65-94`) at the
filesystem level, assuming the `open`, `ftruncate` and `mmap` syscalls
succeed (their failures are the only `throw` sites).  The function opens
or creates the file and truncates it to `sizeof(Header) + size_`; it never
reads a stored segment size and never compares it with the requested one,
so no size-mismatch failure exists. -/
def init_shared_memory (fs : FsState) (size_ : Nat) : Option QErr × FsState :=
  let opened := open_creat fs
  let fs2 := ftruncate_fs opened.2 (header_bytes + size_)
  (none, fs2)

/-- `Queue::Impl::Impl(name, size)` at the filesystem level: stores
`size_ = align_to_8(size)` and runs `init_shared_memory`. -/
def impl_create_fs (fs : FsState) (size : Nat) : Option QErr × FsState :=
  init_shared_memory fs (align_to_8 size)

end Msgq

namespace MsgqEvent

/-- One `Event` object from `event_modern.h`: it owns nothing but a file
descriptor (`event_fd_`), `-1` meaning invalid. -/
structure CEvent where
  fd : Int
deriving DecidableEq, Repr

/-- `Event::is_valid()`: `event_fd_ >= 0`. -/
def CEvent.is_valid (e : CEvent) : Bool := decide (0 ≤ e.fd)

/-- Outcomes of `Event::wait_for_one` (`event_modern.h:296-341`).  The
C++ signals everything but success by `throw`; the constructors name the
four distinct throw sites. -/
inductive WaitOutcome where
  | ready (i : Nat)   -- `return static_cast<int>(i)`
  | timeout           -- "Event poll timed out"
  | invalidArgument   -- "No events to wait for"
  | allInvalid        -- "All events are invalid"
  | noReady           -- "No events ready after poll returned"
deriving DecidableEq, Repr

/-- The scan `for (i = 0; i < fds.size(); i++) if (fds[i].revents & POLLIN)
return i;` over the pollfd array, given which descriptors are readable.
The returned index counts positions in `fds` — the array the code built,
not the caller's event list. -/
def first_ready_index (signaled : Int → Bool) : List Int → WaitOutcome
  | [] => .noReady
  | fd :: rest =>
    if signaled fd then .ready 0
    else
      match first_ready_index signaled rest with
      | .ready i => .ready (i + 1)
      | other => other

/-- `Event::wait_for_one(events, timeout_sec)` with a finite timeout,
where `signaled fd` says whether descriptor `fd` is readable at the time
`ppoll` runs: empty input throws `invalid_argument`; the valid events'
descriptors are collected (invalid ones are skipped); if none remain it
throws "All events are invalid"; if `ppoll` reports no readiness it
throws the timeout error; otherwise the index of the first ready entry of
the collected array is returned. -/
def wait_for_one (events : List CEvent) (signaled : Int → Bool) : WaitOutcome :=
  if events.isEmpty then .invalidArgument
  else
    let fds := (events.filter fun e => e.is_valid).map fun e => e.fd
    if fds.isEmpty then .allInvalid
    else if fds.all fun fd => !signaled fd then .timeout
    else first_ready_index signaled fds

/-- Lowest index in a list of events whose entry satisfies `p`; used to
state what "the lowest index (in the caller's list)" means. -/
def lowest_index_where (p : CEvent → Bool) : List CEvent → Option Nat
  | [] => none
  | e :: rest =>
    if p e then some 0 else (lowest_index_where p rest).map fun i => i + 1

end MsgqEvent

namespace MsgqFake

/-- The four observable actions of `FakeSubSocket::receive`
(`impl_fake_modern.h:124-137`): `recv_called->set()`,
`recv_ready->wait()`, `recv_ready->clear()` and the delegated
`TSubSocket::receive`. -/
inductive GateOp where
  | setCalled | waitReady | clearReady | underlyingRecv
deriving DecidableEq, Repr

/-- The two actions of the driver's release cycle described for the fake
gate: `recv_called.wait()` then `recv_ready.set()`. -/
inductive DrvOp where
  | waitCalled | setReady
deriving DecidableEq, Repr

/-- The fields of `FakeSubSocket` that `receive` branches on: whether the
`state`, `recv_called` and `recv_ready` shared pointers are non-null, and
the `enabled` flag of the copied `EventState`. -/
structure FakeSub where
  has_state : Bool
  enabled : Bool
  has_recv_called : Bool
  has_recv_ready : Bool
deriving DecidableEq, Repr

/-- The sequence of actions one `FakeSubSocket::receive` call performs,
read off the code: under `state && state->enabled` it sets `recv_called`
(when non-null), waits on and clears `recv_ready` (when non-null), and in
every case ends with the underlying receive. -/
def receiveOps (s : FakeSub) : List GateOp :=
  (if s.has_state && s.enabled then
    (if s.has_recv_called then [GateOp.setCalled] else []) ++
    (if s.has_recv_ready then [GateOp.waitReady, GateOp.clearReady] else [])
  else []) ++ [GateOp.underlyingRecv]

/-- A subscriber socket after a successful `FakeSubSocket::connect` with
the gate enabled: `connect` installs `state`, `recv_called` and
`recv_ready` together, only on full success. -/
def connectedSub : FakeSub :=
  { has_state := true, enabled := true
    has_recv_called := true, has_recv_ready := true }

/-- The driver's rendezvous cycle. -/
def driverOps : List DrvOp := [DrvOp.waitCalled, DrvOp.setReady]

/-- A configuration of the subscriber/driver pair: the actions each still
has to perform and the two `eventfd` counters (an `eventfd` is readable
iff its counter is positive; `set` adds 1, `clear` reads it back to 0). -/
structure GateConfig where
  sub : List GateOp
  drv : List DrvOp
  called : Nat
  ready : Nat
deriving DecidableEq, Repr

/-- Interleaved small-step semantics of the gated receive against the
driver.  `wait` operations can only fire when the corresponding counter
is positive (the descriptor is readable); all other operations are always
enabled.  Either side may step at any time. -/
inductive GateStep : GateConfig → GateConfig → Prop where
  | subSet {rest d c r} :
      GateStep ⟨GateOp.setCalled :: rest, d, c, r⟩ ⟨rest, d, c + 1, r⟩
  | subWait {rest d c r} (h : 0 < r) :
      GateStep ⟨GateOp.waitReady :: rest, d, c, r⟩ ⟨rest, d, c, r⟩
  | subClear {rest d c r} :
      GateStep ⟨GateOp.clearReady :: rest, d, c, r⟩ ⟨rest, d, c, 0⟩
  | subRecv {rest d c r} :
      GateStep ⟨GateOp.underlyingRecv :: rest, d, c, r⟩ ⟨rest, d, c, r⟩
  | drvWait {s rest c r} (h : 0 < c) :
      GateStep ⟨s, DrvOp.waitCalled :: rest, c, r⟩ ⟨s, rest, c, r⟩
  | drvSet {s rest c r} :
      GateStep ⟨s, DrvOp.setReady :: rest, c, r⟩ ⟨s, rest, c, r + 1⟩

/-- Reachability under the interleaved semantics. -/
def GateReach (a b : GateConfig) : Prop := Relation.ReflTransGen GateStep a b

/-- Initial configuration: an enabled, fully connected subscriber about
to run `receive`, the driver about to run its cycle, and both events
unsignaled. -/
def initGateConfig : GateConfig :=
  { sub := receiveOps connectedSub, drv := driverOps, called := 0, ready := 0 }

/-- The subscriber has passed its `recv_ready->wait()`. -/
def subPastWait (s : List GateOp) : Prop :=
  s = [GateOp.clearReady, GateOp.underlyingRecv] ∨
  s = [GateOp.underlyingRecv] ∨ s = []

/-- Shapes the subscriber's remaining action list can take. -/
def subShape (s : List GateOp) : Prop :=
  s = [GateOp.setCalled, GateOp.waitReady, GateOp.clearReady, GateOp.underlyingRecv] ∨
  s = [GateOp.waitReady, GateOp.clearReady, GateOp.underlyingRecv] ∨
  subPastWait s

/-- Shapes the driver's remaining action list can take. -/
def drvShape (d : List DrvOp) : Prop :=
  d = driverOps ∨ d = [DrvOp.setReady] ∨ d = []

/-- Inductive invariant of the rendezvous: list shapes, `ready` stays `0`
while the driver has not performed `recv_ready.set()`, and the subscriber
can be past its wait only once the driver is done. -/
def gateInv (cfg : GateConfig) : Prop :=
  subShape cfg.sub ∧ drvShape cfg.drv ∧
  (cfg.drv ≠ [] → cfg.ready = 0) ∧ (subPastWait cfg.sub → cfg.drv = [])

end MsgqFake

namespace MsgqSpecSide

open Msgq

/-- Liveness status of the process owning a reader slot, as the spec's
occupancy/liveness discussion distinguishes them. -/
inductive SlotOwner where
  | free | live | dead
deriving DecidableEq, Repr

/-- A channel state together with the OS-level facts the spec's
`all_readers_updated` description consults: who owns each reader slot and
whether that owner is alive. -/
structure ReaderWorld where
  shared : Shared
  owner : Nat → SlotOwner

/-- Modelled from the spec: "true iff every occupied reader slot's cursor
equals `write_cursor`", where a slot "with a dead owner" is "treated as
updated (ignored)" and free slots are not occupied — so exactly the slots
with a live owner must match. -/
def spec_all_readers_updated (w : ReaderWorld) : Bool :=
  (List.range NUM_READERS).all fun i =>
    if w.owner i = SlotOwner.live then
      w.shared.header.read_index i == w.shared.header.write_index
    else true

end MsgqSpecSide

namespace MsgqCases

open Msgq MsgqEvent MsgqSpecSide

/-! ### Concrete states used by the claim theorems -/

/-- Scenario for C1 (spec scenario S1): channel of requested size 1024,
one subscriber that joins on the fresh segment. -/
def c1_join : Option QErr × (Handle × Shared) :=
  init_subscriber (Handle.fresh 1024) (Shared.fresh 1024)

/-- The subscriber handle after joining. -/
def c1_hsub : Handle := c1_join.2.1

/-- The shared state after the subscriber joined. -/
def c1_sh1 : Shared := c1_join.2.2

/-- The publisher handle. -/
def c1_hpub : Handle := init_publisher (Handle.fresh 1024)

/-- The payload "A". -/
def c1_payload : List Nat := [65]

/-- Shared state after the single send (the send is proved to succeed in
the C1 theorem). -/
def c1_sh2 : Shared :=
  (send_message c1_hpub c1_sh1 c1_payload).toOption.getD (Shared.fresh 1024)

/-- Publisher handle on a segment of requested size 64 (C2, C5). -/
def small_hpub : Handle := init_publisher (Handle.fresh 64)

/-- A 24-byte payload (C2, spec scenario S2). -/
def c2_payload : List Nat := List.replicate 24 65

/-- Existing backing file of a channel created with requested size 64:
`sizeof(Header) + align_to_8(64)` bytes (C3). -/
def c3_before : FsState := ⟨some (header_bytes + align_to_8 64)⟩

/-- Channel state in which four messages were already published (write
cursor `(1, 24)`) and no reader has joined yet (C4). -/
def c4_sh : Shared :=
  { header := { write_index := (PackedPointer.ofParts 1 24).raw
                read_index := fun _ => 0, num_readers := 0
                reader_uid := 0, segment_size := 0 }
    data := List.replicate 64 0 }

/-- A 60-byte payload on the size-64 segment (C5): larger than
`segment_size - 8 = 56`, not larger than `segment_size = 64`. -/
def c5_payload : List Nat := List.replicate 60 0

/-- Channel state for C6: one allocated slot (index 0) whose cursor lags
the write cursor. -/
def c6_sh : Shared :=
  { header := { write_index := 0, read_index := fun i => if i = 0 then 8 else 0
                num_readers := 1, reader_uid := 0, segment_size := 0 }
    data := List.replicate 64 0 }

/-- Owner map for C6: slot 0 is owned by a process that has died, every
other slot is free. -/
def c6_owner : Nat → SlotOwner := fun i => if i = 0 then .dead else .free

/-- The C6 world: the channel state plus the owner liveness facts. -/
def c6_world : ReaderWorld := { shared := c6_sh, owner := c6_owner }

/-- Event list for C8: a default-constructed (invalid, fd `-1`) event
followed by a valid event on descriptor 5. -/
def c8_events : List CEvent := [⟨-1⟩, ⟨5⟩]

/-- Readiness at poll time for C8: exactly descriptor 5 is readable. -/
def c8_signaled : Int → Bool := fun fd => fd == 5

/-- Channel state with all 15 reader slots already handed out (C10). -/
def c10_sh : Shared :=
  { header := { write_index := 0, read_index := fun _ => 0, num_readers := 15
                reader_uid := 0, segment_size := 0 }
    data := List.replicate 64 0 }

end MsgqCases


namespace MsgqProofs

open Msgq MsgqEvent MsgqFake MsgqSpecSide MsgqCases

/-- C1 (code evaluation at the failing input): on a size-1024 channel with
a subscriber that joined before the send, a single `send("A")` followed by
a single `recv` returns a message with no bytes — `receive_message` never
parses a frame or copies payload bytes — so the round-trip property fails
for the one-byte payload "A". -/
theorem c1_recv_returns_empty :
    c1_join.1 = none ∧
    send_message c1_hpub c1_sh1 c1_payload = .ok c1_sh2 ∧
    (receive_message c1_hsub c1_sh2 100 false).map (fun p => p.1) =
      .ok ([] : List Nat) ∧
    ([] : List Nat) ≠ c1_payload :=
  ⟨rfl, rfl, rfl, by decide⟩

/-- C2 (counterexample): on a size-64 segment at write cursor `(0, 0)`, a
send of 24 payload bytes should — per the claim — advance the offset by
`align_to_8 (8 + 24) = 32` without wrap and leave the cycle unchanged,
giving cursor `(0, 32)`; the code instead stores cursor `(1, 24)`: it
advances the offset by the bare payload length and increments the cycle on
every send. -/
theorem c2_counterexample :
    (send_message small_hpub (Shared.fresh 64) c2_payload).map
        (fun s => s.header.write_index) = .ok (PackedPointer.ofParts 1 24).raw ∧
    align_to_8 (8 + c2_payload.length) = 32 ∧
    PackedPointer.offset ⟨(Shared.fresh 64).header.write_index⟩ + 32 < 64 ∧
    (PackedPointer.ofParts 1 24).raw ≠ (PackedPointer.ofParts 0 32).raw :=
  ⟨rfl, by decide, by decide, by decide⟩

/-- C3 (code evaluation at the failing input): re-opening the segment of a
channel created with requested size 64 (file size `144 + 64`) while
requesting size 128 does not fail at all — `init_shared_memory` performs
no size comparison — and it silently `ftruncate`s the existing file to
`144 + 128` bytes, changing the stored size. -/
theorem c3_reopen_resizes :
    (impl_create_fs c3_before 128).1 = none ∧
    (impl_create_fs c3_before 128).2 = ⟨some (header_bytes + 128)⟩ ∧
    header_bytes + 128 ≠ header_bytes + align_to_8 64 :=
  ⟨rfl, by decide, by decide⟩

/-- C4 (counterexample): on a channel whose write cursor is `(1, 24)`, a
successful `init_subscriber` leaves the newly claimed slot's cursor at its
prior value 0 instead of setting it to the write cursor — the code never
writes `read_index` during registration. -/
theorem c4_counterexample :
    (init_subscriber (Handle.fresh 64) c4_sh).1 = none ∧
    (init_subscriber (Handle.fresh 64) c4_sh).2.1.reader_id = 0 ∧
    (init_subscriber (Handle.fresh 64) c4_sh).2.2.header.read_index 0 = 0 ∧
    (init_subscriber (Handle.fresh 64) c4_sh).2.2.header.write_index =
      (PackedPointer.ofParts 1 24).raw ∧
    (0 : Nat) ≠ (PackedPointer.ofParts 1 24).raw :=
  ⟨rfl, rfl, rfl, rfl, by decide⟩

/-- C5 (counterexample): a 60-byte payload on a segment of size 64 exceeds
`segment_size - frame_header_size = 56`, so per the claim the send must
fail with the message-too-large error; the code's bound is
`data.size() > size_`, so the send succeeds. -/
theorem c5_counterexample :
    (∃ sh, send_message small_hpub (Shared.fresh 64) c5_payload = .ok sh) ∧
    c5_payload.length > small_hpub.size - 8 :=
  ⟨⟨_, rfl⟩, by decide⟩

/-- C6 (counterexample): in a state where slot 0 is allocated
(`num_readers = 1`) but its owning process is dead and its cursor lags the
write cursor, `all_readers_updated` returns `false`, while the spec-side
predicate — which ignores slots with dead owners — is `true`; the code
never consults owner liveness. -/
theorem c6_counterexample :
    all_readers_updated c6_sh = false ∧
    spec_all_readers_updated c6_world = true :=
  ⟨by decide, by decide⟩

/-- C8 (counterexample): with the caller's list `[invalid (fd -1), valid
fd 5]` and descriptor 5 readable, `wait_for_one` returns index 0 — the
position within the compacted array of valid descriptors — whereas the
lowest caller-list index of a signaled event is 1. -/
theorem c8_counterexample :
    wait_for_one c8_events c8_signaled = .ready 0 ∧
    lowest_index_where (fun e => c8_signaled e.fd) c8_events = some 1 ∧
    (0 : Nat) ≠ 1 :=
  ⟨by decide, by decide, by decide⟩

/-- C9 (code evaluation at the failing input): on a freshly created queue
handle, on which `init_subscriber` was never called, `reader_id_` is `-1`,
and `msg_ready` uses exactly that value to index `read_index` — the index
violates `0 ≤ index < 15`, so the shared-memory access is out of bounds. -/
theorem c9_reader_slot_out_of_bounds :
    msg_ready_slot (Handle.fresh 1024) = -1 ∧
    ¬ (0 ≤ msg_ready_slot (Handle.fresh 1024) ∧
       msg_ready_slot (Handle.fresh 1024) < (15 : Int)) :=
  ⟨rfl, by decide⟩

/-- C10 (code evaluation at the failing input): with all 15 reader slots
handed out, `init_subscriber` fails with the maximum-subscribers error but
has already executed `num_readers++`, leaving `num_readers = 16` in the
shared header — the failed call does not leave the header unchanged. -/
theorem c10_failed_init_mutates_header :
    (init_subscriber (Handle.fresh 64) c10_sh).1 = some QErr.maxSubscribers ∧
    (init_subscriber (Handle.fresh 64) c10_sh).2.2.header.num_readers = 16 ∧
    c10_sh.header.num_readers = 15 ∧ (16 : Nat) ≠ 15 :=
  ⟨rfl, rfl, rfl, by decide⟩

end MsgqProofs

namespace MsgqProofs2

open Msgq MsgqEvent MsgqFake MsgqSpecSide MsgqCases

/-- C2 (amended): for every send of a payload of length `n` by an
initialized publisher with `n ≤ segment_size` (and a positive segment
size, so the C++ `% size_` is defined), the write cursor's offset becomes
`(offset + n) mod segment_size` — the bare payload length, with no frame
header and no 8-byte rounding — and the cycle counter increments by
exactly one on *every* send, wrapping or not (modulo `2^32`). -/
theorem c2_amended (h : Handle) (sh : Shared) (payload : List Nat)
    (hpub : h.is_publisher = true) (hlen : payload.length ≤ h.size)
    (_hsize : 0 < h.size) :
    (send_message h sh payload).map (fun s => s.header.write_index) =
      .ok (PackedPointer.ofParts
            (PackedPointer.cycle ⟨sh.header.write_index⟩ + 1)
            ((PackedPointer.offset ⟨sh.header.write_index⟩ + payload.length) %
              h.size)).raw := by
  unfold send_message
  rw [hpub]
  rw [if_neg (by decide : ¬((!true) = true))]
  rw [if_neg (Nat.not_lt.mpr hlen)]
  rfl

/-- C2 witness: the amended cursor law evaluated on the concrete size-64
segment with a 24-byte payload. -/
theorem c2_amended_witness :
    small_hpub.is_publisher = true ∧ c2_payload.length ≤ small_hpub.size ∧
    0 < small_hpub.size ∧
    (send_message small_hpub (Shared.fresh 64) c2_payload).map
        (fun s => s.header.write_index) =
      .ok (PackedPointer.ofParts
            (PackedPointer.cycle ⟨(Shared.fresh 64).header.write_index⟩ + 1)
            ((PackedPointer.offset ⟨(Shared.fresh 64).header.write_index⟩ +
              c2_payload.length) % small_hpub.size)).raw :=
  ⟨rfl, by decide, by decide,
    c2_amended small_hpub (Shared.fresh 64) c2_payload rfl (by decide) (by decide)⟩

/-- C5 (amended): on an initialized publisher, `send` fails with the
message-too-large error iff the payload length exceeds `segment_size`
itself (the code's bound is `data.size() > size_`, not
`size_ - frame_header_size`); any payload with length at most
`segment_size` is sent successfully. -/
theorem c5_amended (h : Handle) (sh : Shared) (payload : List Nat)
    (hpub : h.is_publisher = true) :
    ((∃ sh2, send_message h sh payload = .ok sh2) ↔
      payload.length ≤ h.size) ∧
    (send_message h sh payload = .error QErr.messageTooLarge ↔
      h.size < payload.length) := by
  unfold send_message
  rw [hpub]
  rw [if_neg (by decide : ¬((!true) = true))]
  by_cases hc : h.size < payload.length
  · rw [if_pos hc]
    refine ⟨⟨fun hex => ?_, fun hle => absurd hc (Nat.not_lt.mpr hle)⟩,
      ⟨fun _ => hc, fun _ => rfl⟩⟩
    obtain ⟨sh2, hsh⟩ := hex
    exact Except.noConfusion hsh
  · rw [if_neg hc]
    refine ⟨⟨fun _ => Nat.not_lt.mp hc, fun _ => ⟨_, rfl⟩⟩,
      ⟨fun hcontra => Except.noConfusion hcontra, fun hlt => absurd hlt hc⟩⟩

/-- C5 witness: the amended bound evaluated at the 60-byte payload on the
size-64 segment. -/
theorem c5_amended_witness :
    small_hpub.is_publisher = true ∧
    ((∃ sh2, send_message small_hpub (Shared.fresh 64) c5_payload = .ok sh2) ↔
      c5_payload.length ≤ small_hpub.size) :=
  ⟨rfl, (c5_amended small_hpub (Shared.fresh 64) c5_payload rfl).1⟩

/-- C4 (amended): a successful `init_subscriber` assigns the handle the
slot index equal to the previous `num_readers` and increments
`num_readers`, but leaves every reader cursor — in particular the newly
claimed slot's — and the write cursor unchanged; it does *not* set the new
reader's cursor to the current write cursor, so on a fresh segment the
slot cursor stays 0 and a later `recv` also consumes messages published
before the join.  The call fails iff all 15 slots were handed out. -/
theorem c4_amended (h : Handle) (sh : Shared)
    (hn : sh.header.num_readers < 2 ^ 31) :
    (init_subscriber h sh).2.2.header.read_index = sh.header.read_index ∧
    (init_subscriber h sh).2.2.header.write_index = sh.header.write_index ∧
    (init_subscriber h sh).2.1.reader_id = (sh.header.num_readers : Int) ∧
    (init_subscriber h sh).2.2.header.num_readers =
      (sh.header.num_readers + 1) % 2 ^ 32 ∧
    ((init_subscriber h sh).1 = none ↔ sh.header.num_readers < 15) := by
  have hti : toInt32 sh.header.num_readers = (sh.header.num_readers : Int) := by
    simp only [toInt32]
    rw [Nat.mod_eq_of_lt (by omega)]
    rw [if_pos hn]
  have h15 : NUM_READERS = 15 := rfl
  simp only [init_subscriber]
  by_cases hlt : sh.header.num_readers < 15
  · rw [if_neg (by rw [hti, h15]; omega)]
    exact ⟨rfl, rfl, hti, rfl, iff_of_true rfl hlt⟩
  · rw [if_pos (by rw [hti, h15]; omega)]
    exact ⟨rfl, rfl, hti, rfl, iff_of_false (Option.some_ne_none _) hlt⟩

/-- C4 witness: the amended registration law evaluated at the C4 state
(write cursor `(1, 24)`, no readers yet). -/
theorem c4_amended_witness :
    c4_sh.header.num_readers < 2 ^ 31 ∧
    ((init_subscriber (Handle.fresh 64) c4_sh).1 = none ↔
      c4_sh.header.num_readers < 15) :=
  ⟨by decide, (c4_amended (Handle.fresh 64) c4_sh (by decide)).2.2.2.2⟩

end MsgqProofs2

namespace MsgqProofs3

open Msgq MsgqEvent MsgqSpecSide MsgqCases

/-- Bridge between the boolean scan of `all_readers_updated` and its
universally quantified reading. -/
theorem all_range_eq_iff (g : Nat → Nat) (w n : Nat) :
    (((List.range n).all fun i => g i == w) = true) ↔
      ∀ i, i < n → g i = w := by
  rw [List.all_eq_true]
  constructor
  · intro hall i hi
    exact beq_iff_eq.mp (hall i (List.mem_range.mpr hi))
  · intro hptw x hx
    exact beq_iff_eq.mpr (hptw x (List.mem_range.mp hx))

/-- C6 (amended): `all_readers_updated` returns `true` iff every slot with
index below `num_readers` has its cursor equal to the write cursor.  Slots
at or beyond `num_readers` never affect the result (changing their cursors
changes nothing); owner identity and liveness are never consulted, so a
slot whose owning process died still counts until its cursor matches. -/
theorem c6_amended (sh : Shared) :
    (all_readers_updated sh = true ↔
      ∀ i, i < sh.header.num_readers →
        sh.header.read_index i = sh.header.write_index) ∧
    (∀ f : Nat → Nat,
      (∀ i, i < sh.header.num_readers → f i = sh.header.read_index i) →
      all_readers_updated
          { sh with header := { sh.header with read_index := f } } =
        all_readers_updated sh) := by
  constructor
  · exact all_range_eq_iff sh.header.read_index sh.header.write_index
      sh.header.num_readers
  · intro f hf
    have h1 := all_range_eq_iff f sh.header.write_index sh.header.num_readers
    have h2 := all_range_eq_iff sh.header.read_index sh.header.write_index
      sh.header.num_readers
    have hiff : (((List.range sh.header.num_readers).all fun i =>
          f i == sh.header.write_index) = true) ↔
        (((List.range sh.header.num_readers).all fun i =>
          sh.header.read_index i == sh.header.write_index) = true) := by
      rw [h1, h2]
      constructor
      · intro hp i hi
        rw [← hf i hi]
        exact hp i hi
      · intro hp i hi
        rw [hf i hi]
        exact hp i hi
    show ((List.range sh.header.num_readers).all fun i =>
        f i == sh.header.write_index) =
      ((List.range sh.header.num_readers).all fun i =>
        sh.header.read_index i == sh.header.write_index)
    cases hx : ((List.range sh.header.num_readers).all fun i =>
        f i == sh.header.write_index) with
    | true => exact (hiff.mp hx).symm
    | false =>
      cases hy : ((List.range sh.header.num_readers).all fun i =>
          sh.header.read_index i == sh.header.write_index) with
      | true => exact absurd (hiff.mpr hy) (by rw [hx]; exact Bool.false_ne_true)
      | false => rfl

/-- C6 witness: the amended characterization applied to the C6 state with
an alternative cursor function that agrees on the allocated slot. -/
theorem c6_amended_witness :
    (∀ i, i < c6_sh.header.num_readers →
      (fun j => if j = 0 then 8 else 7) i = c6_sh.header.read_index i) ∧
    all_readers_updated { c6_sh with header := { c6_sh.header with
        read_index := fun j => if j = 0 then 8 else 7 } } =
      all_readers_updated c6_sh := by
  have hagree : ∀ i, i < c6_sh.header.num_readers →
      (fun j => if j = 0 then 8 else 7) i = c6_sh.header.read_index i := by
    intro i hi
    have hi0 : i = 0 := by
      have : c6_sh.header.num_readers = 1 := rfl
      omega
    subst hi0
    rfl
  exact ⟨hagree, (c6_amended c6_sh).2 (fun j => if j = 0 then 8 else 7) hagree⟩

end MsgqProofs3

namespace MsgqProofs4

open Msgq MsgqEvent MsgqCases

/-- A located lowest index yields a member satisfying the predicate. -/
theorem lowest_index_where_mem (p : CEvent → Bool) :
    ∀ (events : List CEvent) (k : Nat),
      lowest_index_where p events = some k → ∃ e, e ∈ events ∧ p e = true := by
  intro events
  induction events with
  | nil => intro k hk; cases hk
  | cons e rest ih =>
    intro k hk
    unfold lowest_index_where at hk
    by_cases hp : p e = true
    · exact ⟨e, List.mem_cons_self e rest, hp⟩
    · rw [if_neg hp] at hk
      obtain ⟨k2, hk2, _⟩ := Option.map_eq_some'.mp hk
      obtain ⟨e2, he2, hpe2⟩ := ih k2 hk2
      exact ⟨e2, List.mem_cons_of_mem e he2, hpe2⟩

/-- Index correspondence between the caller's event list and the compacted
array of valid descriptors the code polls: if the first valid signaled
event sits at caller index `k`, the scan over the compacted array stops at
the number of valid events among the first `k`. -/
theorem first_ready_of_lowest (signaled : Int → Bool) :
    ∀ (events : List CEvent) (k : Nat),
      lowest_index_where (fun e => e.is_valid && signaled e.fd) events = some k →
      first_ready_index signaled
          ((events.filter fun e => e.is_valid).map fun e => e.fd) =
        .ready ((events.take k).countP fun e => e.is_valid) := by
  intro events
  induction events with
  | nil => intro k hk; cases hk
  | cons e rest ih =>
    intro k hk
    unfold lowest_index_where at hk
    by_cases hpe : (e.is_valid && signaled e.fd) = true
    · rw [if_pos hpe] at hk
      injection hk with hk0
      subst hk0
      simp only [Bool.and_eq_true] at hpe
      obtain ⟨hv, hs⟩ := hpe
      rw [List.filter_cons_of_pos hv]
      show first_ready_index signaled (e.fd :: _) = _
      unfold first_ready_index
      rw [if_pos hs]
      rfl
    · rw [if_neg hpe] at hk
      obtain ⟨k2, hk2, hk2eq⟩ := Option.map_eq_some'.mp hk
      subst hk2eq
      have ihh := ih k2 hk2
      by_cases hv : e.is_valid = true
      · have hs : signaled e.fd = false := by
          cases hsig : signaled e.fd with
          | true => exact absurd (by rw [hv, hsig]; rfl) hpe
          | false => rfl
        rw [List.filter_cons_of_pos hv]
        show first_ready_index signaled (e.fd :: _) = _
        unfold first_ready_index
        rw [if_neg (by rw [hs]; exact Bool.false_ne_true)]
        rw [ihh]
        rw [List.take_succ_cons, List.countP_cons_of_pos _ _ hv]
      · have hvf : e.is_valid = false := Bool.eq_false_iff.mpr hv
        rw [List.filter_cons_of_neg (by rw [hvf]; exact Bool.false_ne_true)]
        rw [ihh]
        rw [List.take_succ_cons, List.countP_cons_of_neg _ _ (by rw [hvf]; exact Bool.false_ne_true)]

/-- C8 (amended): when at least one valid event (fd ≥ 0) is signaled,
`wait_for_one` returns the position of the first such event *within the
subsequence of valid events* — the number of valid events preceding it in
the caller's list — which equals the caller's-list index only when no
invalid event precedes it; when some event is valid but none is both
valid and signaled, the call fails with the timeout error. -/
theorem c8_amended (events : List CEvent) (signaled : Int → Bool) :
    (∀ k, lowest_index_where (fun e => e.is_valid && signaled e.fd) events =
        some k →
      wait_for_one events signaled =
        .ready ((events.take k).countP fun e => e.is_valid)) ∧
    ((events.any fun e => e.is_valid) = true →
      (∀ e, e ∈ events → ¬(e.is_valid = true ∧ signaled e.fd = true)) →
      wait_for_one events signaled = .timeout) := by
  constructor
  · intro k hk
    obtain ⟨e0, he0, hp0⟩ :=
      lowest_index_where_mem (fun e => e.is_valid && signaled e.fd) events k hk
    simp only [Bool.and_eq_true] at hp0
    obtain ⟨hv0, hs0⟩ := hp0
    have hne : events ≠ [] := List.ne_nil_of_mem he0
    have hmem : e0.fd ∈ (events.filter fun e => e.is_valid).map fun e => e.fd :=
      List.mem_map_of_mem _ (List.mem_filter.mpr ⟨he0, hv0⟩)
    unfold wait_for_one
    rw [if_neg (by simp [List.isEmpty_iff, hne])]
    rw [if_neg (by simp [List.isEmpty_iff]; exact ⟨e0, he0, hv0⟩)]
    rw [if_neg (fun hall => by
      have hx := List.all_eq_true.mp hall _ hmem
      rw [hs0] at hx
      exact Bool.false_ne_true hx)]
    exact first_ready_of_lowest signaled events k hk
  · intro hany hnone
    obtain ⟨e0, he0, hv0⟩ := List.any_eq_true.mp hany
    have hne : events ≠ [] := List.ne_nil_of_mem he0
    have hmem : e0.fd ∈ (events.filter fun e => e.is_valid).map fun e => e.fd :=
      List.mem_map_of_mem _ (List.mem_filter.mpr ⟨he0, hv0⟩)
    unfold wait_for_one
    rw [if_neg (by simp [List.isEmpty_iff, hne])]
    rw [if_neg (by simp [List.isEmpty_iff]; exact ⟨e0, he0, hv0⟩)]
    rw [if_pos (List.all_eq_true.mpr (fun fd hfd => by
      obtain ⟨e1, he1m, he1eq⟩ := List.mem_map.mp hfd
      obtain ⟨he1, hv1⟩ := List.mem_filter.mp he1m
      have hs1 : signaled e1.fd = false := by
        cases hsig : signaled e1.fd with
        | true => exact absurd ⟨hv1, hsig⟩ (hnone e1 he1)
        | false => rfl
      rw [← he1eq, hs1]
      rfl))]

/-- C8 witness: the amended index law at the list `[invalid, fd 3, fd 7]`
with descriptor 7 readable: the first valid signaled event has caller
index 2 and the call returns 1, the count of valid events before it. -/
theorem c8_amended_witness :
    lowest_index_where (fun e => e.is_valid && e.fd == 7)
      [(⟨-1⟩ : CEvent), ⟨3⟩, ⟨7⟩] = some 2 ∧
    wait_for_one [(⟨-1⟩ : CEvent), ⟨3⟩, ⟨7⟩] (fun fd => fd == 7) =
      .ready (([(⟨-1⟩ : CEvent), ⟨3⟩, ⟨7⟩].take 2).countP fun e => e.is_valid) :=
  ⟨by decide,
    (c8_amended [(⟨-1⟩ : CEvent), ⟨3⟩, ⟨7⟩] (fun fd => fd == 7)).1 2 (by decide)⟩

end MsgqProofs4

namespace MsgqProofs5

open MsgqFake

/-- The invariant holds in the initial configuration. -/
theorem gateInv_init : gateInv initGateConfig := by
  refine ⟨Or.inl rfl, Or.inl rfl, fun _ => rfl, ?_⟩
  intro hp
  rcases hp with h | h | h <;> exact absurd h (by decide)

/-- The invariant is preserved by every interleaved step. -/
theorem gateInv_step {a b : GateConfig} (hInv : gateInv a)
    (hstep : GateStep a b) : gateInv b := by
  obtain ⟨hsub, hdrv, hready, hpast⟩ := hInv
  cases hstep with
  | subSet =>
    rename_i rest d c r
    simp only [subShape, subPastWait] at hsub
    rcases hsub with h | h | h | h | h <;> simp at h
    subst h
    refine ⟨Or.inr (Or.inl rfl), hdrv, hready, ?_⟩
    intro hp
    simp [subPastWait] at hp
  | subWait hr =>
    rename_i rest d c r
    simp only [subShape, subPastWait] at hsub
    rcases hsub with h | h | h | h | h <;> simp at h
    subst h
    have hd : d = [] := by
      by_cases hdn : d = []
      · exact hdn
      · have h0 : r = 0 := hready hdn
        omega
    subst hd
    exact ⟨Or.inr (Or.inr (Or.inl rfl)), Or.inr (Or.inr rfl),
      fun hne => absurd rfl hne, fun _ => rfl⟩
  | subClear =>
    rename_i rest d c r
    simp only [subShape, subPastWait] at hsub
    rcases hsub with h | h | h | h | h <;> simp at h
    subst h
    have hd : d = [] := hpast (Or.inl rfl)
    subst hd
    exact ⟨Or.inr (Or.inr (Or.inr (Or.inl rfl))), Or.inr (Or.inr rfl),
      fun _ => rfl, fun _ => rfl⟩
  | subRecv =>
    rename_i rest d c r
    simp only [subShape, subPastWait] at hsub
    rcases hsub with h | h | h | h | h <;> simp at h
    subst h
    have hd : d = [] := hpast (Or.inr (Or.inl rfl))
    subst hd
    exact ⟨Or.inr (Or.inr (Or.inr (Or.inr rfl))), Or.inr (Or.inr rfl),
      fun hne => absurd rfl hne, fun _ => rfl⟩
  | drvWait hc =>
    rename_i s rest c r
    simp only [drvShape, driverOps] at hdrv
    rcases hdrv with h | h | h <;> simp at h
    subst h
    have hr0 : r = 0 := hready (by simp)
    refine ⟨hsub, Or.inr (Or.inl rfl), fun _ => hr0, ?_⟩
    intro hp
    have := hpast hp
    simp at this
  | drvSet =>
    rename_i s rest c r
    simp only [drvShape, driverOps] at hdrv
    rcases hdrv with h | h | h <;> simp at h
    subst h
    refine ⟨hsub, Or.inr (Or.inr rfl), fun hne => absurd rfl hne, ?_⟩
    intro hp
    have := hpast hp
    simp at this

/-- Every configuration reachable from the initial one satisfies the
invariant. -/
theorem gateInv_reach {cfg : GateConfig}
    (h : GateReach initGateConfig cfg) : gateInv cfg := by
  induction h with
  | refl => exact gateInv_init
  | tail _ hbc ih => exact gateInv_step ih hbc

/-- C7: with the fake gate enabled on a connected subscriber, `receive`
performs, in order, `recv_called.set()`, `recv_ready.wait()`,
`recv_ready.clear()` and only then the underlying receive; with the gate
disabled it performs only the underlying receive; and in every
interleaving of the gated receive with the driver cycle
(`recv_called.wait()` then `recv_ready.set()`), starting from unsignaled
events, the subscriber cannot finish its receive before the driver has
completed the full cycle. -/
theorem c7_confirmed :
    receiveOps connectedSub =
      [GateOp.setCalled, GateOp.waitReady, GateOp.clearReady,
        GateOp.underlyingRecv] ∧
    (∀ s : FakeSub, (s.has_state && s.enabled) = false →
      receiveOps s = [GateOp.underlyingRecv]) ∧
    (∀ cfg : GateConfig, GateReach initGateConfig cfg → cfg.sub = [] →
      cfg.drv = []) := by
  refine ⟨rfl, ?_, ?_⟩
  · intro s hs
    unfold receiveOps
    rw [hs]
    rfl
  · intro cfg hreach hdone
    exact (gateInv_reach hreach).2.2.2 (Or.inr (Or.inr hdone))

/-- C7 witness: the canonical rendezvous execution — subscriber sets
`recv_called`, driver waits on it and sets `recv_ready`, subscriber
passes its wait, clears, and performs the underlying receive — reaches
the configuration where the subscriber is done, and there the driver has
indeed completed its cycle. -/
theorem c7_witness :
    GateReach initGateConfig ⟨[], [], 1, 0⟩ ∧
    (⟨[], [], 1, 0⟩ : GateConfig).drv = [] := by
  have hreach : GateReach initGateConfig ⟨[], [], 1, 0⟩ := by
    have h0 : initGateConfig =
        ⟨[GateOp.setCalled, GateOp.waitReady, GateOp.clearReady,
          GateOp.underlyingRecv], [DrvOp.waitCalled, DrvOp.setReady], 0, 0⟩ := rfl
    rw [h0]
    exact Relation.ReflTransGen.head GateStep.subSet
      (Relation.ReflTransGen.head (GateStep.drvWait (by decide))
        (Relation.ReflTransGen.head GateStep.drvSet
          (Relation.ReflTransGen.head (GateStep.subWait (by decide))
            (Relation.ReflTransGen.head GateStep.subClear
              (Relation.ReflTransGen.head GateStep.subRecv
                Relation.ReflTransGen.refl)))))
  exact ⟨hreach, c7_confirmed.2.2 ⟨[], [], 1, 0⟩ hreach rfl⟩

end MsgqProofs5
